import Mathlib

/-
Verification development for the REPL;ay telemetry pipeline.

The definitions below are a shallow embedding of the repository's Python
sources:
  * apps/api/src/repl_ay_api/routers/events.py   (ingestion + storage task)
  * apps/api/src/repl_ay_api/routers/traces.py   (trace reconstruction)
  * packages/repl-ay-sdk/src/repl_ay/client.py   (buffering client)
  * packages/repl-ay-sdk/src/repl_ay/decorators.py (instrumentation hooks)
  * packages/repl-ay-sdk/src/repl_ay/types.py    (event model)

Python dictionaries are modelled as association lists over a small JSON
value type, exceptions as `Except`/`Option`, wall-clock readings and the
freshly generated UUIDs as explicit parameters, and the fire-and-forget
transmission as an append to a list of dispatched batches.
-/

namespace ReplAy

/- JSON-ish values: the free-form event maps that flow through ingestion. -/

inductive JVal where
  | null : JVal
  | str (s : String) : JVal
  | num (n : Int) : JVal
  | obj (fields : List (String × JVal)) : JVal

/- Python `dict` lookup: first binding of the key, if any. -/

def dictFind : List (String × JVal) → String → Option JVal
  | [], _ => none
  | (k, v) :: fs, key => if k = key then some v else dictFind fs key

/- Python `key in event`. -/

def hasKey (fs : List (String × JVal)) (key : String) : Bool :=
  (dictFind fs key).isSome

/- Python `event.get(key, dflt)`: the stored value when the key is present
(even when that stored value is `None`), the default otherwise. -/

def dictGetD (fs : List (String × JVal)) (key : String) (dflt : JVal) : JVal :=
  (dictFind fs key).getD dflt

/- Python `d[key] = v`: overwrite in place when present, append otherwise. -/

def setKey (fs : List (String × JVal)) (key : String) (v : JVal) : List (String × JVal) :=
  if hasKey fs key then fs.map (fun p => if p.1 = key then (key, v) else p)
  else fs ++ [(key, v)]

/- Python `d.update(new)`. -/

def dictUpdate (fs new : List (String × JVal)) : List (String × JVal) :=
  new.foldl (fun acc kv => setKey acc kv.1 kv.2) fs

/- events.py, `ingest_events` (lines 67-119): the metadata stamped onto
every event of a batch. -/

structure StampMeta where
  batch_id : String
  api_key_hash : Int
  ingested_at : String
  project_id : String
  session_id : String
  environment : String

def stampFields (m : StampMeta) : List (String × JVal) :=
  [("batch_id", JVal.str m.batch_id),
   ("api_key_hash", JVal.num m.api_key_hash),
   ("ingested_at", JVal.str m.ingested_at),
   ("project_id", JVal.str m.project_id),
   ("session_id", JVal.str m.session_id),
   ("environment", JVal.str m.environment)]

/- The body of the per-event `try` block: `event_data.update(...)` succeeds
exactly when the event is a map; a structurally invalid event raises and is
skipped by the `except` handler. -/

def parseEvent (m : StampMeta) : JVal → Option (List (String × JVal))
  | JVal.obj fields => some (dictUpdate fields (stampFields m))
  | _ => none

def isObjEvent : JVal → Bool
  | JVal.obj _ => true
  | _ => false

structure EventResponse where
  success : Bool
  events_received : Nat
  batch_id : String
  message : String

/- events.py `ingest_events`: stamp each event (skipping invalid ones), fail
the whole batch with HTTP 400 when nothing survives, otherwise respond and
hand the parsed list to the background storage task.  The `Except` error
carries the HTTP status code; the second component of a successful result is
exactly the list handed to `store_events_batch`. -/

def ingest_events (m : StampMeta) (events : List JVal) :
    Except Nat (EventResponse × List (List (String × JVal))) :=
  let parsed := events.filterMap (parseEvent m)
  if parsed.isEmpty then Except.error 400
  else Except.ok
    ({ success := true,
       events_received := parsed.length,
       batch_id := m.batch_id,
       message := "Successfully queued " ++ toString parsed.length ++ " events for processing" },
     parsed)

/- events.py, `store_events_batch` (lines 136-223): one analytical-store row
per event.  Conditional variant columns are `Option` (absent when the guard
key is missing); promoted common columns hold the JSON value (possibly
`null`). -/

structure StoredRow where
  batch_id : String
  event_id : JVal
  event_type : JVal
  timestamp : JVal
  trace_id : JVal
  span_id : JVal
  parent_span_id : JVal
  session_id : JVal
  project_id : JVal
  environment : JVal
  api_key_hash : JVal
  ingested_at : JVal
  raw_data : List (String × JVal)
  agent_id : Option JVal := none
  agent_name : Option JVal := none
  agent_role : Option JVal := none
  task_id : Option JVal := none
  task_name : Option JVal := none
  tool_name : Option JVal := none
  execution_time_ms : Option JVal := none
  model_name : Option JVal := none
  tokens_used : Option JVal := none
  cost_usd : Option JVal := none
  latency_ms : Option JVal := none

/- `event.get("trace_context", {})` followed by attribute access `.get`:
succeeds only when the value at hand is a map; a non-map value raises inside
the storage task. -/

def traceCtxFields (ev : List (String × JVal)) : Option (List (String × JVal)) :=
  match dictGetD ev "trace_context" (JVal.obj []) with
  | JVal.obj ctx => some ctx
  | _ => none

def mkStoredRow (batch_id : String) (fresh_event_id : String) (now : String)
    (ev : List (String × JVal)) (ctx : List (String × JVal)) : StoredRow :=
  { batch_id := batch_id,
    event_id := dictGetD ev "event_id" (JVal.str fresh_event_id),
    event_type := dictGetD ev "event_type" JVal.null,
    timestamp := dictGetD ev "timestamp" (JVal.str now),
    trace_id := dictGetD ctx "trace_id" JVal.null,
    span_id := dictGetD ctx "span_id" JVal.null,
    parent_span_id := dictGetD ctx "parent_span_id" JVal.null,
    session_id := dictGetD ev "session_id" JVal.null,
    project_id := dictGetD ev "project_id" JVal.null,
    environment := dictGetD ev "environment" JVal.null,
    api_key_hash := dictGetD ev "api_key_hash" JVal.null,
    ingested_at := dictGetD ev "ingested_at" JVal.null,
    raw_data := ev,
    agent_id := if hasKey ev "agent_id" then some (dictGetD ev "agent_id" JVal.null) else none,
    agent_name := if hasKey ev "agent_id" then some (dictGetD ev "agent_name" JVal.null) else none,
    agent_role := if hasKey ev "agent_id" then some (dictGetD ev "agent_role" JVal.null) else none,
    task_id := if hasKey ev "task_id" then some (dictGetD ev "task_id" JVal.null) else none,
    task_name := if hasKey ev "task_id" then some (dictGetD ev "task_name" JVal.null) else none,
    tool_name := if hasKey ev "tool_name" then some (dictGetD ev "tool_name" JVal.null) else none,
    execution_time_ms := if hasKey ev "tool_name" then some (dictGetD ev "execution_time_ms" JVal.null) else none,
    model_name := if hasKey ev "model_name" then some (dictGetD ev "model_name" JVal.null) else none,
    tokens_used := if hasKey ev "model_name" then some (dictGetD ev "tokens_used" JVal.null) else none,
    cost_usd := if hasKey ev "model_name" then some (dictGetD ev "cost_usd" JVal.null) else none,
    latency_ms := if hasKey ev "model_name" then some (dictGetD ev "latency_ms" JVal.null) else none }

def rowOfEvent (batch_id : String) (fresh_event_id : String) (now : String)
    (ev : List (String × JVal)) : Option StoredRow :=
  (traceCtxFields ev).map (mkStoredRow batch_id fresh_event_id now ev)

/- The storage task: flatten every event into a row and perform one batch
insert.  An exception while flattening (raised before the insert) aborts the
whole task, so nothing is stored — modelled by `Option`.  `freshIds i` is
the UUID generated for the i-th event when it lacks an `event_id`; `now` is
the storage-time clock reading. -/

def storeRowsFrom (batch_id : String) (now : String) (freshIds : Nat → String) :
    Nat → List (List (String × JVal)) → Option (List StoredRow)
  | _, [] => some []
  | i, ev :: evs =>
    match rowOfEvent batch_id (freshIds i) now ev with
    | none => none
    | some r => (storeRowsFrom batch_id now freshIds (i + 1) evs).map (fun rs => r :: rs)

def store_events_batch (batch_id : String) (now : String) (freshIds : Nat → String)
    (events : List (List (String × JVal))) : Option (List StoredRow) :=
  storeRowsFrom batch_id now freshIds 0 events

/- types.py, `EventType`: the 12 enumerated event types. -/

inductive EventType where
  | AGENT_START | AGENT_END | AGENT_ERROR
  | TASK_START | TASK_END | TASK_ERROR
  | TOOL_START | TOOL_END | TOOL_ERROR
  | LLM_START | LLM_END | LLM_ERROR
  deriving DecidableEq

def EventType.value : EventType → String
  | .AGENT_START => "agent.start"
  | .AGENT_END => "agent.end"
  | .AGENT_ERROR => "agent.error"
  | .TASK_START => "task.start"
  | .TASK_END => "task.end"
  | .TASK_ERROR => "task.error"
  | .TOOL_START => "tool.start"
  | .TOOL_END => "tool.end"
  | .TOOL_ERROR => "tool.error"
  | .LLM_START => "llm.start"
  | .LLM_END => "llm.end"
  | .LLM_ERROR => "llm.error"

/- traces.py: the `telemetry_events` columns used by the reconstruction
queries.  Timestamps are integers (the analytical store's DateTime
arithmetic); optional columns are `Option`. -/

structure TelemetryRow where
  trace_id : String
  event_type : String
  timestamp : Int
  model_name : Option String := none
  cost_usd : Option ℚ := none
  tokens_used : Option Int := none
  agent_id : Option String := none
  task_id : Option String := none
  deriving DecidableEq

/- SQL `x LIKE '%<suf>'`: a percent wildcard followed by a literal suffix. -/

def likeSuffix (suf : String) (s : String) : Bool :=
  suf.data.isSuffixOf s.data

def likeError : String := ".error"
def likeStart : String := ".start"
def likeEnd : String := ".end"

/- SQL `countIf(event_type LIKE '%<suf>')` over a scope. -/

def countIfSuffix (suf : String) (rows : List TelemetryRow) : Nat :=
  (rows.filter (fun r => likeSuffix suf r.event_type)).length

/- The status CASE expression shared by `get_recent_traces` (lines 348-369)
and `get_trace_detail` (lines 412-432). -/

def derive_status (rows : List TelemetryRow) : String :=
  if 0 < countIfSuffix likeError rows then "failed"
  else if countIfSuffix likeEnd rows < countIfSuffix likeStart rows then "running"
  else "completed"

/- `GROUP BY trace_id`: the events making up one trace scope. -/

def traceEvents (rows : List TelemetryRow) (tid : String) : List TelemetryRow :=
  rows.filter (fun r => decide (r.trace_id = tid))

/- SQL `min(timestamp)` and `max(timestamp)` aggregates (on a non-empty
group; SQL aggregation never sees the empty case). -/

def aggMin : List Int → Int
  | [] => 0
  | t :: ts => ts.foldl min t

def aggMax : List Int → Int
  | [] => 0
  | t :: ts => ts.foldl max t

def timestamps (rows : List TelemetryRow) : List Int :=
  rows.map (fun r => r.timestamp)

def trace_start (rows : List TelemetryRow) : Int := aggMin (timestamps rows)

def trace_end (rows : List TelemetryRow) : Int := aggMax (timestamps rows)

/- `max(timestamp) - min(timestamp) as duration_ms`. -/

def duration_ms (rows : List TelemetryRow) : Int := trace_end rows - trace_start rows

/- traces.py, `get_cost_breakdown` (lines 242-322). -/

def costVal (r : TelemetryRow) : ℚ := r.cost_usd.getD 0

/- The CTE's `WHERE ... cost_usd > 0` filter (a NULL cost never satisfies a
SQL comparison). -/

def positiveCostRows (rows : List TelemetryRow) : List TelemetryRow :=
  rows.filter (fun r => decide (0 < costVal r))

/- `GROUP BY model_name`: the distinct grouping keys, NULL included. -/

def modelKeys (rows : List TelemetryRow) : List (Option String) :=
  ((positiveCostRows rows).map (fun r => r.model_name)).dedup

/- `sum(cost_usd)` within one model group. -/

def groupCost (rows : List TelemetryRow) (k : Option String) : ℚ :=
  (((positiveCostRows rows).filter (fun r => decide (r.model_name = k))).map costVal).sum

/- The `total_cost` CTE: the sum of the per-model costs. -/

def total_cost (rows : List TelemetryRow) : ℚ :=
  ((modelKeys rows).map (groupCost rows)).sum

/- `coalesce(model_name, 'Unknown')`. -/

def modelLabel (k : Option String) : String := k.getD "Unknown"

/- The fixed model-to-color lookup table of `get_cost_breakdown`. -/

def model_colors : List (String × String) :=
  [("gpt-4", "#3b82f6"),
   ("gpt-3.5-turbo", "#10b981"),
   ("claude", "#f59e0b"),
   ("gemini", "#8b5cf6"),
   ("llama", "#ef4444")]

/- `model_colors.get(row["model"].lower(), "#6b7280")`. -/

def colorFor (label : String) : String :=
  (model_colors.lookup label.toLower).getD "#6b7280"

/- Python `round(x, ndigits)` rounds half to even on the decimal grid. -/

def roundHalfEven (y : ℚ) : ℤ :=
  if 2 * (y - ⌊y⌋) = 1 then (if 2 ∣ ⌊y⌋ then ⌊y⌋ else ⌊y⌋ + 1) else round y

def pyRound (x : ℚ) (ndigits : Nat) : ℚ :=
  (roundHalfEven (x * 10 ^ ndigits) : ℚ) / 10 ^ ndigits

structure CostBreakdownItem where
  model_name : String
  cost : ℚ
  percentage : ℚ
  color : String
  deriving DecidableEq

/- `(cost / total.total) * 100` for one group, before Python rounding. -/

def exactPercentage (rows : List TelemetryRow) (k : Option String) : ℚ :=
  groupCost rows k / total_cost rows * 100

/- The query's result rows `(model, cost)` ordered by `cost DESC`. -/

def sortedModelCosts (rows : List TelemetryRow) : List (Option String × ℚ) :=
  ((modelKeys rows).map (fun k => (k, groupCost rows k))).mergeSort
    (fun a b => decide (b.2 ≤ a.2))

/- The response items assembled by the Python loop: rounded cost and
percentage plus the presentation color. -/

def get_cost_breakdown (rows : List TelemetryRow) : List CostBreakdownItem :=
  (sortedModelCosts rows).map (fun kc =>
    { model_name := modelLabel kc.1,
      cost := pyRound kc.2 2,
      percentage := pyRound (kc.2 / total_cost rows * 100) 1,
      color := colorFor (modelLabel kc.1) })

/- client.py: the buffering client.  The SDK event is abstracted to the
fields the hooks and the global fallback actually read or write. -/

structure SdkEvent where
  event_id : String
  event_type : String
  session_id : Option String := none
  status : Option String := none
  error_message : Option String := none
  meta_error_type : Option String := none
  meta_traceback : Option String := none
  execution_time_ms : Option Int := none
  deriving DecidableEq

/- The client state: configuration plus `_event_buffer` and `_last_flush`.
`dispatched` records the batches handed to `_send_events_async` by the
fire-and-forget `create_task` call, in dispatch order. -/

structure ReplAyClient where
  batch_size : Nat
  flush_interval_seconds : Int
  debug : Bool
  session_id : String
  event_buffer : List SdkEvent
  last_flush : Int
  dispatched : List (List SdkEvent)
  deriving DecidableEq

/- `ReplAyClient.__init__`: empty buffer, `_last_flush = time.time()`. -/

def ReplAyClient.new (batch_size : Nat) (flush_interval_seconds : Int) (debug : Bool)
    (session_id : String) (now : Int) : ReplAyClient :=
  { batch_size := batch_size,
    flush_interval_seconds := flush_interval_seconds,
    debug := debug,
    session_id := session_id,
    event_buffer := [],
    last_flush := now,
    dispatched := [] }

/- `_flush_events` (client.py lines 128-144): return on an empty buffer;
otherwise snapshot the buffer (`[:]` copy), clear it, reset `_last_flush`,
and dispatch the snapshot. -/

def ReplAyClient.flush_events (c : ReplAyClient) (now : Int) : ReplAyClient :=
  if c.event_buffer.isEmpty then c
  else { c with event_buffer := [],
                last_flush := now,
                dispatched := c.dispatched ++ [c.event_buffer] }

/- `track_event` (client.py lines 111-126): append, then auto-flush when the
buffer has reached `batch_size` or `flush_interval_seconds` have passed
since the last flush. -/

def ReplAyClient.track_event (c : ReplAyClient) (now : Int) (e : SdkEvent) : ReplAyClient :=
  let c1 := { c with event_buffer := c.event_buffer ++ [e] }
  if c.batch_size ≤ c1.event_buffer.length ∨
     c.flush_interval_seconds ≤ now - c.last_flush
  then c1.flush_events now
  else c1

/- `flush` (client.py lines 172-174). -/

def ReplAyClient.flush (c : ReplAyClient) (now : Int) : ReplAyClient :=
  c.flush_events now

/- Every event the client has accepted: dispatched batches followed by the
current buffer. -/

def ReplAyClient.allEvents (c : ReplAyClient) : List SdkEvent :=
  c.dispatched.flatten ++ c.event_buffer

/- client.py lines 191-228: the module-level singleton. -/

abbrev GlobalClient := Option ReplAyClient

/- `initialize(...)`: install a fresh client as the global singleton. -/

def init_global_client (batch_size : Nat) (flush_interval_seconds : Int) (debug : Bool)
    (session_id : String) (now : Int) : GlobalClient :=
  some (ReplAyClient.new batch_size flush_interval_seconds debug session_id now)

def get_client (g : GlobalClient) : Option ReplAyClient := g

/- Python truthiness of an `Optional[str]`. -/

def truthyStr : Option String → Bool
  | some s => decide (s ≠ "")
  | none => false

/- Module-level `track_event(event)` (client.py lines 221-228): delegate to
the singleton when initialized; otherwise fall back to a debug print (the
returned `Option String` is the printed line) and leave everything
untouched. -/

def track_event (g : GlobalClient) (now : Int) (e : SdkEvent) : GlobalClient × Option String :=
  match get_client g with
  | some c => (some (c.track_event now e), none)
  | none =>
    if truthyStr e.session_id then
      (none, some ("[REPL;ay] No client initialized. Event: " ++ e.event_type))
    else (none, none)

/- decorators.py: instrumentation hooks.  A Python exception carries its
message, its class name, and the captured `traceback.format_exc()`. -/

structure PyExc where
  msg : String
  ty : String
  tb : String
  deriving DecidableEq

/- The events built by `trace_agent` (decorators.py lines 44-116). -/

def agent_start_event (id : String) (sid : Option String) : SdkEvent :=
  { event_id := id, event_type := "agent.start", session_id := sid, status := some "running" }

def agent_end_event (id : String) (sid : Option String) : SdkEvent :=
  { event_id := id, event_type := "agent.end", session_id := sid, status := some "completed" }

def agent_error_event (id : String) (sid : Option String) (err : PyExc) : SdkEvent :=
  { event_id := id, event_type := "agent.error", session_id := sid,
    status := some "failed",
    error_message := some err.msg,
    meta_error_type := some err.ty,
    meta_traceback := some err.tb }

/- The events built by `trace_tool` (decorators.py lines 225-295). -/

def tool_start_event (id : String) (sid : Option String) : SdkEvent :=
  { event_id := id, event_type := "tool.start", session_id := sid }

def tool_end_event (id : String) (sid : Option String) (dur : Int) : SdkEvent :=
  { event_id := id, event_type := "tool.end", session_id := sid,
    execution_time_ms := some dur }

def tool_error_event (id : String) (sid : Option String) (dur : Int) (err : PyExc) : SdkEvent :=
  { event_id := id, event_type := "tool.error", session_id := sid,
    execution_time_ms := some dur,
    error_message := some err.msg,
    meta_error_type := some err.ty,
    meta_traceback := some err.tb }

/- `trace_agent`'s wrapper: call through when no client is initialized;
otherwise record `agent.start`, run the unit of work, record `agent.end` on
normal return or `agent.error` on a raised failure, and propagate the
function's own outcome unchanged.  `ids` supplies the generated UUIDs and
`now` the clock reading. -/

def trace_agent_wrapper {α β : Type} (ids : Nat → String) (now : Int)
    (func : α → Except PyExc β) (g : GlobalClient) (x : α) :
    GlobalClient × Except PyExc β :=
  match get_client g with
  | none => (g, func x)
  | some c =>
    let c1 := c.track_event now (agent_start_event (ids 0) (some c.session_id))
    match func x with
    | Except.ok v =>
      (some (c1.track_event now (agent_end_event (ids 1) (some c.session_id))), Except.ok v)
    | Except.error err =>
      (some (c1.track_event now (agent_error_event (ids 1) (some c.session_id) err)),
       Except.error err)

/- `trace_tool`'s wrapper; `dur` is the measured execution time. -/

def trace_tool_wrapper {α β : Type} (ids : Nat → String) (now dur : Int)
    (func : α → Except PyExc β) (g : GlobalClient) (x : α) :
    GlobalClient × Except PyExc β :=
  match get_client g with
  | none => (g, func x)
  | some c =>
    let c1 := c.track_event now (tool_start_event (ids 0) (some c.session_id))
    match func x with
    | Except.ok v =>
      (some (c1.track_event now (tool_end_event (ids 1) (some c.session_id) dur)), Except.ok v)
    | Except.error err =>
      (some (c1.track_event now (tool_error_event (ids 1) (some c.session_id) dur err)),
       Except.error err)

/- Line-level atomic actions of `track_event` / `_flush_events`, for
reasoning about interleavings of concurrent callers (CPython interleaves
threads between bytecodes; the client takes no lock). -/

def act_append (c : ReplAyClient) (e : SdkEvent) : ReplAyClient :=
  { c with event_buffer := c.event_buffer ++ [e] }

def act_snapshot (c : ReplAyClient) : List SdkEvent := c.event_buffer

def act_clear (c : ReplAyClient) : ReplAyClient := { c with event_buffer := [] }

def act_set_last_flush (c : ReplAyClient) (now : Int) : ReplAyClient :=
  { c with last_flush := now }

def act_dispatch (c : ReplAyClient) (batch : List SdkEvent) : ReplAyClient :=
  { c with dispatched := c.dispatched ++ [batch] }

/- Concrete data for the examples and counterexamples. -/

def ev1 : SdkEvent := { event_id := "ev-1", event_type := "tool.start" }

def ev2 : SdkEvent := { event_id := "ev-2", event_type := "tool.end" }

def raceStart : ReplAyClient :=
  { batch_size := 100, flush_interval_seconds := 30, debug := false,
    session_id := "sess", event_buffer := [ev1], last_flush := 0, dispatched := [] }

def exRow (tid ty : String) (ts : Int) : TelemetryRow :=
  { trace_id := tid, event_type := ty, timestamp := ts }

def exampleCompleted : List TelemetryRow :=
  [exRow "t1" "agent.start" 0, exRow "t1" "tool.start" 1,
   exRow "t1" "tool.end" 2, exRow "t1" "agent.end" 3]

def exampleRunning : List TelemetryRow :=
  [exRow "t1" "agent.start" 0, exRow "t1" "tool.start" 1, exRow "t1" "tool.end" 2]

def exampleFailed : List TelemetryRow := [exRow "t1" "llm.error" 5]

/- `exampleCompleted` with its storage arrival order reversed. -/

def exampleShuffled : List TelemetryRow :=
  [exRow "t1" "agent.end" 3, exRow "t1" "tool.end" 2,
   exRow "t1" "tool.start" 1, exRow "t1" "agent.start" 0]

def meta0 : StampMeta :=
  { batch_id := "batch-0", api_key_hash := 17, ingested_at := "2025-01-01T00:00:00",
    project_id := "proj-0", session_id := "sess-0", environment := "production" }

/- A two-element ingestion batch: one well-formed map, one invalid entry. -/

def mixedBatch : List JVal :=
  [JVal.obj [("event_type", JVal.str "llm.end")], JVal.num 7]

def wids : Nat → String := fun i => "uuid-" ++ toString i

def wexc : PyExc := { msg := "boom", ty := "ValueError", tb := "Traceback (most recent call last)" }

def wfunc : Nat → Except PyExc Nat :=
  fun n => if n = 0 then Except.error wexc else Except.ok n

def wclient : ReplAyClient := ReplAyClient.new 100 30 false "sess" 0

/- A client one event short of its size threshold. -/

def smallBatchClient : ReplAyClient :=
  { batch_size := 1, flush_interval_seconds := 30, debug := false,
    session_id := "sess", event_buffer := [], last_flush := 0, dispatched := [] }

def rows8 : List TelemetryRow :=
  [{ trace_id := "t8", event_type := "llm.end", timestamp := 0,
     model_name := some "gpt-4", cost_usd := some 1 },
   { trace_id := "t8", event_type := "llm.end", timestamp := 1,
     model_name := some "mystery-model", cost_usd := some 3 }]

def e9a : SdkEvent := { event_id := "e9a", event_type := "llm.start", session_id := some "s9" }

def e9b : SdkEvent := { event_id := "e9b", event_type := "llm.start" }

def fresh10 : Nat → String := fun i => "fresh-" ++ toString i

def events10 : List (List (String × JVal)) :=
  [[("timestamp", JVal.str "2025-01-01T00:00:01"),
    ("trace_context", JVal.obj [("trace_id", JVal.str "tr-0")])],
   [("event_id", JVal.str "given-id")]]

def rows10 : List StoredRow :=
  (store_events_batch "batch-10" "t-now" fresh10 events10).getD []

/- Helper lemmas. -/

theorem foldl_min_mem (ts : List Int) : ∀ t : Int, ts.foldl min t ∈ t :: ts := by
  induction ts with
  | nil => intro t; simp
  | cons a ts ih =>
    intro t
    simp only [List.foldl_cons]
    rcases List.mem_cons.mp (ih (min t a)) with h1 | h1
    · rcases min_choice t a with hm | hm
      · rw [h1, hm]; exact List.mem_cons_self _ _
      · rw [h1, hm]; exact List.mem_cons_of_mem _ (List.mem_cons_self _ _)
    · exact List.mem_cons_of_mem _ (List.mem_cons_of_mem _ h1)

theorem foldl_min_le (ts : List Int) : ∀ t x : Int, x ∈ t :: ts → ts.foldl min t ≤ x := by
  induction ts with
  | nil =>
    intro t x hx
    rw [List.mem_singleton.mp hx]
    exact le_refl _
  | cons a ts ih =>
    intro t x hx
    simp only [List.foldl_cons]
    rcases List.mem_cons.mp hx with h1 | h1
    · rw [h1]
      exact le_trans (ih (min t a) (min t a) (List.mem_cons_self _ _)) (min_le_left _ _)
    · rcases List.mem_cons.mp h1 with h2 | h2
      · rw [h2]
        exact le_trans (ih (min t a) (min t a) (List.mem_cons_self _ _)) (min_le_right _ _)
      · exact ih (min t a) x (List.mem_cons_of_mem _ h2)

theorem foldl_max_mem (ts : List Int) : ∀ t : Int, ts.foldl max t ∈ t :: ts := by
  induction ts with
  | nil => intro t; simp
  | cons a ts ih =>
    intro t
    simp only [List.foldl_cons]
    rcases List.mem_cons.mp (ih (max t a)) with h1 | h1
    · rcases max_choice t a with hm | hm
      · rw [h1, hm]; exact List.mem_cons_self _ _
      · rw [h1, hm]; exact List.mem_cons_of_mem _ (List.mem_cons_self _ _)
    · exact List.mem_cons_of_mem _ (List.mem_cons_of_mem _ h1)

theorem le_foldl_max (ts : List Int) : ∀ t x : Int, x ∈ t :: ts → x ≤ ts.foldl max t := by
  induction ts with
  | nil =>
    intro t x hx
    rw [List.mem_singleton.mp hx]
    exact le_refl _
  | cons a ts ih =>
    intro t x hx
    simp only [List.foldl_cons]
    rcases List.mem_cons.mp hx with h1 | h1
    · rw [h1]
      exact le_trans (le_max_left _ _) (ih (max t a) (max t a) (List.mem_cons_self _ _))
    · rcases List.mem_cons.mp h1 with h2 | h2
      · rw [h2]
        exact le_trans (le_max_right _ _) (ih (max t a) (max t a) (List.mem_cons_self _ _))
      · exact ih (max t a) x (List.mem_cons_of_mem _ h2)

theorem aggMin_mem : ∀ (l : List Int), l ≠ [] → aggMin l ∈ l
  | [], h => absurd rfl h
  | t :: ts, _ => foldl_min_mem ts t

theorem aggMin_le : ∀ (l : List Int), ∀ x ∈ l, aggMin l ≤ x
  | [], x, hx => absurd hx (List.not_mem_nil x)
  | t :: ts, x, hx => foldl_min_le ts t x hx

theorem aggMax_mem : ∀ (l : List Int), l ≠ [] → aggMax l ∈ l
  | [], h => absurd rfl h
  | t :: ts, _ => foldl_max_mem ts t

theorem le_aggMax : ∀ (l : List Int), ∀ x ∈ l, x ≤ aggMax l
  | [], x, hx => absurd hx (List.not_mem_nil x)
  | t :: ts, x, hx => le_foldl_max ts t x hx

theorem aggMin_perm (l l' : List Int) (hp : l.Perm l') (h : l ≠ []) :
    aggMin l = aggMin l' := by
  have h' : l' ≠ [] := by
    intro e
    exact h (List.Perm.eq_nil (e ▸ hp))
  exact le_antisymm (aggMin_le l _ (hp.mem_iff.mpr (aggMin_mem l' h')))
    (aggMin_le l' _ (hp.mem_iff.mp (aggMin_mem l h)))

theorem aggMax_perm (l l' : List Int) (hp : l.Perm l') (h : l ≠ []) :
    aggMax l = aggMax l' := by
  have h' : l' ≠ [] := by
    intro e
    exact h (List.Perm.eq_nil (e ▸ hp))
  exact le_antisymm (le_aggMax l' _ (hp.mem_iff.mp (aggMax_mem l h)))
    (le_aggMax l _ (hp.mem_iff.mpr (aggMax_mem l' h')))

theorem allEvents_flush_events (c : ReplAyClient) (now : Int) :
    (c.flush_events now).allEvents = c.allEvents := by
  by_cases hb : c.event_buffer.isEmpty
  · simp [ReplAyClient.flush_events, hb]
  · simp [ReplAyClient.flush_events, hb, ReplAyClient.allEvents, List.flatten_append]

theorem allEvents_track_event (c : ReplAyClient) (now : Int) (e : SdkEvent) :
    (c.track_event now e).allEvents = c.allEvents ++ [e] := by
  simp only [ReplAyClient.track_event]
  split
  · rw [allEvents_flush_events]
    simp [ReplAyClient.allEvents, List.append_assoc]
  · simp [ReplAyClient.allEvents, List.append_assoc]

/-- C1: Status derivation is a first-match priority rule on each trace
scope: any event whose type matches `%.error` forces status "failed";
otherwise strictly more `%.start` than `%.end` matches yields "running";
otherwise the status is "completed".  For the concrete trace with events
{agent.start, tool.start, tool.end, agent.end} the status is "completed";
removing `agent.end` makes it "running"; adding any `*.error` event makes
it "failed" regardless of the other counts. -/
theorem C1_status_priority (rows : List TelemetryRow) (tid : String) :
    (0 < countIfSuffix likeError (traceEvents rows tid) →
      derive_status (traceEvents rows tid) = "failed") ∧
    (countIfSuffix likeError (traceEvents rows tid) = 0 →
      countIfSuffix likeEnd (traceEvents rows tid) <
        countIfSuffix likeStart (traceEvents rows tid) →
      derive_status (traceEvents rows tid) = "running") ∧
    (countIfSuffix likeError (traceEvents rows tid) = 0 →
      countIfSuffix likeStart (traceEvents rows tid) ≤
        countIfSuffix likeEnd (traceEvents rows tid) →
      derive_status (traceEvents rows tid) = "completed") ∧
    derive_status exampleCompleted = "completed" ∧
    derive_status exampleRunning = "running" ∧
    (∀ (evs : List TelemetryRow) (r : TelemetryRow),
      likeSuffix likeError r.event_type = true → derive_status (r :: evs) = "failed") ∧
    (∀ t : EventType, likeSuffix likeError t.value = true ↔
      (t = EventType.AGENT_ERROR ∨ t = EventType.TASK_ERROR ∨
       t = EventType.TOOL_ERROR ∨ t = EventType.LLM_ERROR)) := by
  refine ⟨?_, ?_, ?_, by decide, by decide, ?_, by intro t; cases t <;> decide⟩
  · intro h
    unfold derive_status
    rw [if_pos h]
  · intro h0 hlt
    unfold derive_status
    rw [if_neg (by omega), if_pos hlt]
  · intro h0 hle
    unfold derive_status
    rw [if_neg (by omega), if_neg (by omega)]
  · intro evs r hr
    have hcount : countIfSuffix likeError (r :: evs) = countIfSuffix likeError evs + 1 := by
      simp [countIfSuffix, List.filter_cons, hr]
    unfold derive_status
    rw [if_pos (by omega)]

/-- Witness for C1: the three priority branches discharged at concrete
traces. -/
theorem C1_status_priority_witness :
    (0 < countIfSuffix likeError (traceEvents exampleFailed "t1") ∧
      derive_status (traceEvents exampleFailed "t1") = "failed") ∧
    (countIfSuffix likeError (traceEvents exampleRunning "t1") = 0 ∧
      countIfSuffix likeEnd (traceEvents exampleRunning "t1") <
        countIfSuffix likeStart (traceEvents exampleRunning "t1") ∧
      derive_status (traceEvents exampleRunning "t1") = "running") ∧
    (countIfSuffix likeError (traceEvents exampleCompleted "t1") = 0 ∧
      countIfSuffix likeStart (traceEvents exampleCompleted "t1") ≤
        countIfSuffix likeEnd (traceEvents exampleCompleted "t1") ∧
      derive_status (traceEvents exampleCompleted "t1") = "completed") :=
  ⟨⟨by decide, (C1_status_priority exampleFailed "t1").1 (by decide)⟩,
   ⟨by decide, by decide, (C1_status_priority exampleRunning "t1").2.1 (by decide) (by decide)⟩,
   ⟨by decide, by decide,
    (C1_status_priority exampleCompleted "t1").2.2.1 (by decide) (by decide)⟩⟩

/-- C4: For every non-empty trace scope, the derived start time is the
minimum event timestamp, the end time is the maximum, the duration is end
minus start, and all three are invariant under permuting the stored event
set (storage arrival order is irrelevant). -/
theorem C4_time_bounds (rows rows2 : List TelemetryRow) (tid : String)
    (h : traceEvents rows tid ≠ [])
    (hp : (traceEvents rows tid).Perm (traceEvents rows2 tid)) :
    (trace_start (traceEvents rows tid) ∈ timestamps (traceEvents rows tid) ∧
      ∀ t ∈ timestamps (traceEvents rows tid), trace_start (traceEvents rows tid) ≤ t) ∧
    (trace_end (traceEvents rows tid) ∈ timestamps (traceEvents rows tid) ∧
      ∀ t ∈ timestamps (traceEvents rows tid), t ≤ trace_end (traceEvents rows tid)) ∧
    duration_ms (traceEvents rows tid) =
      trace_end (traceEvents rows tid) - trace_start (traceEvents rows tid) ∧
    trace_start (traceEvents rows tid) = trace_start (traceEvents rows2 tid) ∧
    trace_end (traceEvents rows tid) = trace_end (traceEvents rows2 tid) ∧
    duration_ms (traceEvents rows tid) = duration_ms (traceEvents rows2 tid) := by
  have hts : timestamps (traceEvents rows tid) ≠ [] := by
    intro e
    exact h (List.map_eq_nil_iff.mp e)
  have hpts : (timestamps (traceEvents rows tid)).Perm (timestamps (traceEvents rows2 tid)) :=
    hp.map _
  have hstart : trace_start (traceEvents rows tid) = trace_start (traceEvents rows2 tid) :=
    aggMin_perm _ _ hpts hts
  have hstop : trace_end (traceEvents rows tid) = trace_end (traceEvents rows2 tid) :=
    aggMax_perm _ _ hpts hts
  refine ⟨⟨aggMin_mem _ hts, fun t ht => aggMin_le _ t ht⟩,
    ⟨aggMax_mem _ hts, fun t ht => le_aggMax _ t ht⟩, rfl, hstart, hstop, ?_⟩
  unfold duration_ms
  rw [hstart, hstop]

/-- Witness for C4: the example trace and its arrival-order reversal share
the same derived duration. -/
theorem C4_time_bounds_witness :
    traceEvents exampleCompleted "t1" ≠ [] ∧
    (traceEvents exampleCompleted "t1").Perm (traceEvents exampleShuffled "t1") ∧
    duration_ms (traceEvents exampleCompleted "t1") =
      duration_ms (traceEvents exampleShuffled "t1") :=
  ⟨by decide, by decide,
   (C4_time_bounds exampleCompleted exampleShuffled "t1" (by decide)
      (by decide)).2.2.2.2.2⟩

/-- C5: `flush` drains the current queue snapshot: afterwards the buffer is
empty, the set of buffered-plus-dispatched events is unchanged (nothing
lost, nothing duplicated), an empty buffer makes flush a no-op, a non-empty
buffer is handed to transmission exactly as one batch, and an event
recorded after the flush lands in the fresh queue while the in-flight batch
still holds exactly the snapshot. -/
theorem C5_flush_snapshot (c : ReplAyClient) (now : Int) :
    ((c.flush now).event_buffer = []) ∧
    ((c.flush now).allEvents = c.allEvents) ∧
    (c.event_buffer = [] → c.flush now = c) ∧
    (c.event_buffer ≠ [] → (c.flush now).dispatched = c.dispatched ++ [c.event_buffer]) ∧
    (∀ (e : SdkEvent) (now2 : Int),
      ((c.flush now).track_event now2 e).allEvents = c.allEvents ++ [e] ∧
      (c.event_buffer ≠ [] →
        (((c.flush now).track_event now2 e).dispatched.take (c.dispatched.length + 1) =
          c.dispatched ++ [c.event_buffer])))
    := by
  refine ⟨?_, allEvents_flush_events c now, ?_, ?_, ?_⟩
  · by_cases hb : c.event_buffer.isEmpty
    · simp only [ReplAyClient.flush, ReplAyClient.flush_events]
      rw [if_pos hb]
      exact List.isEmpty_iff.mp hb
    · simp only [ReplAyClient.flush, ReplAyClient.flush_events]
      rw [if_neg hb]
  · intro hb
    simp [ReplAyClient.flush, ReplAyClient.flush_events, hb]
  · intro hb
    have hb' : ¬ c.event_buffer.isEmpty := by
      simp only [List.isEmpty_iff]
      exact hb
    simp only [ReplAyClient.flush, ReplAyClient.flush_events]
    rw [if_neg hb']
  · intro e now2
    constructor
    · have h1 := allEvents_track_event (c.flush now) now2 e
      rw [h1]
      have h2 : (c.flush now).allEvents = c.allEvents := allEvents_flush_events c now
      rw [h2]
    · intro hb
      have hb' : ¬ c.event_buffer.isEmpty := by
        simp only [List.isEmpty_iff]
        exact hb
      have hflush : c.flush now =
          { c with event_buffer := [], last_flush := now,
                   dispatched := c.dispatched ++ [c.event_buffer] } := by
        simp only [ReplAyClient.flush, ReplAyClient.flush_events]
        rw [if_neg hb']
      rw [hflush]
      simp only [ReplAyClient.track_event]
      split
      · simp only [ReplAyClient.flush_events]
        rw [if_neg (by simp)]
        have hlen : (c.dispatched ++ [c.event_buffer]).length = c.dispatched.length + 1 := by
          simp
        calc (((c.dispatched ++ [c.event_buffer]) ++ [[] ++ [e]]).take (c.dispatched.length + 1))
            = ((c.dispatched ++ [c.event_buffer]) ++ [[] ++ [e]]).take
                (c.dispatched ++ [c.event_buffer]).length := by rw [hlen]
          _ = c.dispatched ++ [c.event_buffer] := List.take_left _ _
      · have hlen : c.dispatched.length + 1 = (c.dispatched ++ [c.event_buffer]).length := by
          simp
        rw [hlen, List.take_length]

/-- Witness for C5 at a client with a non-empty buffer. -/
theorem C5_flush_snapshot_witness :
    raceStart.event_buffer ≠ [] ∧
    (raceStart.flush 1).dispatched = raceStart.dispatched ++ [raceStart.event_buffer] ∧
    ((raceStart.flush 1).track_event 2 ev2).dispatched.take
      (raceStart.dispatched.length + 1) = raceStart.dispatched ++ [raceStart.event_buffer] :=
  ⟨by decide,
   (C5_flush_snapshot raceStart 1).2.2.2.1 (by decide),
   ((C5_flush_snapshot raceStart 1).2.2.2.2 ev2 2).2 (by decide)⟩

/-- C6: inside `track_event` the auto-flush fires exactly when, after the
append, the buffer length has reached `batch_size` or the time since the
last flush has reached `flush_interval_seconds`; when neither threshold is
met the buffer is left unflushed (nothing dispatched, clock untouched);
flushing an empty buffer is a no-op. -/
theorem C6_autoflush_threshold (c : ReplAyClient) (e : SdkEvent) (now : Int) :
    (c.batch_size ≤ c.event_buffer.length + 1 ∨
        c.flush_interval_seconds ≤ now - c.last_flush →
      c.track_event now e =
        ReplAyClient.flush_events { c with event_buffer := c.event_buffer ++ [e] } now) ∧
    (¬(c.batch_size ≤ c.event_buffer.length + 1 ∨
        c.flush_interval_seconds ≤ now - c.last_flush) →
      c.track_event now e = { c with event_buffer := c.event_buffer ++ [e] } ∧
      (c.track_event now e).dispatched = c.dispatched ∧
      (c.track_event now e).last_flush = c.last_flush) ∧
    (c.event_buffer = [] → c.flush_events now = c) := by
  refine ⟨?_, ?_, ?_⟩
  · intro h
    have h' : c.batch_size ≤ (c.event_buffer ++ [e]).length ∨
        c.flush_interval_seconds ≤ now - c.last_flush := by
      simpa using h
    simp only [ReplAyClient.track_event]
    rw [if_pos h']
  · intro h
    have h' : ¬(c.batch_size ≤ (c.event_buffer ++ [e]).length ∨
        c.flush_interval_seconds ≤ now - c.last_flush) := by
      simpa using h
    have heq : c.track_event now e = { c with event_buffer := c.event_buffer ++ [e] } := by
      simp only [ReplAyClient.track_event]
      rw [if_neg h']
    refine ⟨heq, ?_, ?_⟩
    · rw [heq]
    · rw [heq]
  · intro hb
    simp [ReplAyClient.flush_events, hb]

/-- Witness for C6: the size threshold firing, neither threshold firing,
and the empty-buffer no-op, at concrete clients. -/
theorem C6_autoflush_threshold_witness :
    (smallBatchClient.batch_size ≤ smallBatchClient.event_buffer.length + 1 ∧
      smallBatchClient.track_event 0 ev1 =
        ReplAyClient.flush_events
          { smallBatchClient with
              event_buffer := smallBatchClient.event_buffer ++ [ev1] } 0) ∧
    (¬(wclient.batch_size ≤ wclient.event_buffer.length + 1 ∨
        wclient.flush_interval_seconds ≤ 0 - wclient.last_flush) ∧
      wclient.track_event 0 ev1 = { wclient with event_buffer := wclient.event_buffer ++ [ev1] }) ∧
    (wclient.event_buffer = [] ∧ wclient.flush_events 0 = wclient) :=
  ⟨⟨by decide,
    (C6_autoflush_threshold smallBatchClient ev1 0).1 (Or.inl (by decide))⟩,
   ⟨by decide,
    ((C6_autoflush_threshold wclient ev1 0).2.1 (by decide)).1⟩,
   ⟨by decide,
    (C6_autoflush_threshold wclient ev1 0).2.2 (by decide)⟩⟩

/-- C7: the client takes no lock, and the claim fails on the code: with the
flush decomposed into its source lines (snapshot, clear, reset clock,
dispatch), a `track_event` append interleaved between another thread's
snapshot and clear is lost — it is in the buffer right after the append,
yet afterwards it is neither in the buffer nor in any dispatched batch.
Sequentially (i.e. with the mutual exclusion the claim asserts) no event is
ever lost, as the last two conjuncts record. -/
theorem C7_unlocked_flush_loses_append :
    (∀ (c : ReplAyClient) (now : Int),
      c.flush_events now =
        if c.event_buffer.isEmpty then c
        else act_dispatch (act_set_last_flush (act_clear c) now) (act_snapshot c)) ∧
    (raceStart.event_buffer = [ev1] ∧
      ev2 ∈ (act_append raceStart ev2).event_buffer ∧
      (act_dispatch (act_set_last_flush (act_clear (act_append raceStart ev2)) 1)
          (act_snapshot raceStart)).event_buffer = [] ∧
      (act_dispatch (act_set_last_flush (act_clear (act_append raceStart ev2)) 1)
          (act_snapshot raceStart)).dispatched = [[ev1]] ∧
      ev2 ∉ (act_dispatch (act_set_last_flush (act_clear (act_append raceStart ev2)) 1)
          (act_snapshot raceStart)).allEvents) ∧
    (∀ (c : ReplAyClient) (now : Int), (c.flush_events now).allEvents = c.allEvents) ∧
    (∀ (c : ReplAyClient) (now : Int) (e : SdkEvent),
      (c.track_event now e).allEvents = c.allEvents ++ [e]) := by
  refine ⟨?_, by decide, allEvents_flush_events, allEvents_track_event⟩
  intro c now
  rfl

/-- C3: the instrumentation hooks are purely observational.  For any wrapped
function and input, the wrapper's returned outcome is exactly the
function's own outcome (same value on normal return, the original failure
re-raised unchanged).  On normal return an `*.end` event is recorded after
the call; on a raised failure the recorded `*.error` event carries the
error message, the error-type classification, and the captured traceback.
This holds for both the `trace_agent` and the `trace_tool` wrapper. -/
theorem C3_hooks_observational {α β : Type} (ids : Nat → String) (now dur : Int)
    (func : α → Except PyExc β) (g : GlobalClient) (x : α) :
    ((trace_agent_wrapper ids now func g x).2 = func x) ∧
    ((trace_tool_wrapper ids now dur func g x).2 = func x) ∧
    (∀ c : ReplAyClient, g = some c →
      (∀ v, func x = Except.ok v →
        ∃ c2, (trace_agent_wrapper ids now func g x).1 = some c2 ∧
          c2.allEvents = c.allEvents ++
            [agent_start_event (ids 0) (some c.session_id),
             agent_end_event (ids 1) (some c.session_id)]) ∧
      (∀ err, func x = Except.error err →
        ∃ c2, (trace_agent_wrapper ids now func g x).1 = some c2 ∧
          c2.allEvents = c.allEvents ++
            [agent_start_event (ids 0) (some c.session_id),
             agent_error_event (ids 1) (some c.session_id) err] ∧
          (agent_error_event (ids 1) (some c.session_id) err).error_message = some err.msg ∧
          (agent_error_event (ids 1) (some c.session_id) err).meta_error_type = some err.ty ∧
          (agent_error_event (ids 1) (some c.session_id) err).meta_traceback = some err.tb) ∧
      (∀ err, func x = Except.error err →
        ∃ c2, (trace_tool_wrapper ids now dur func g x).1 = some c2 ∧
          c2.allEvents = c.allEvents ++
            [tool_start_event (ids 0) (some c.session_id),
             tool_error_event (ids 1) (some c.session_id) dur err] ∧
          (tool_error_event (ids 1) (some c.session_id) dur err).error_message = some err.msg ∧
          (tool_error_event (ids 1) (some c.session_id) dur err).meta_error_type = some err.ty ∧
          (tool_error_event (ids 1) (some c.session_id) dur err).meta_traceback = some err.tb)) := by
  refine ⟨?_, ?_, ?_⟩
  · cases g with
    | none => rfl
    | some c =>
      cases hf : func x with
      | ok v => simp [trace_agent_wrapper, get_client, hf]
      | error err => simp [trace_agent_wrapper, get_client, hf]
  · cases g with
    | none => rfl
    | some c =>
      cases hf : func x with
      | ok v => simp [trace_tool_wrapper, get_client, hf]
      | error err => simp [trace_tool_wrapper, get_client, hf]
  · intro c hg
    subst hg
    refine ⟨?_, ?_, ?_⟩
    · intro v hf
      refine ⟨(c.track_event now (agent_start_event (ids 0) (some c.session_id))).track_event
          now (agent_end_event (ids 1) (some c.session_id)), ?_, ?_⟩
      · simp [trace_agent_wrapper, get_client, hf]
      · rw [allEvents_track_event, allEvents_track_event, List.append_assoc]
        rfl
    · intro err hf
      refine ⟨(c.track_event now (agent_start_event (ids 0) (some c.session_id))).track_event
          now (agent_error_event (ids 1) (some c.session_id) err), ?_, ?_, rfl, rfl, rfl⟩
      · simp [trace_agent_wrapper, get_client, hf]
      · rw [allEvents_track_event, allEvents_track_event, List.append_assoc]
        rfl
    · intro err hf
      refine ⟨(c.track_event now (tool_start_event (ids 0) (some c.session_id))).track_event
          now (tool_error_event (ids 1) (some c.session_id) dur err), ?_, ?_, rfl, rfl, rfl⟩
      · simp [trace_tool_wrapper, get_client, hf]
      · rw [allEvents_track_event, allEvents_track_event, List.append_assoc]
        rfl

/-- Witness for C3 at a concrete failing unit of work. -/
theorem C3_hooks_observational_witness :
    (some wclient : GlobalClient) = some wclient ∧
    wfunc 0 = Except.error wexc ∧
    (trace_agent_wrapper wids 5 wfunc (some wclient) 0).2 = wfunc 0 ∧
    (∃ c2, (trace_agent_wrapper wids 5 wfunc (some wclient) 0).1 = some c2 ∧
      c2.allEvents = wclient.allEvents ++
        [agent_start_event (wids 0) (some wclient.session_id),
         agent_error_event (wids 1) (some wclient.session_id) wexc] ∧
      (agent_error_event (wids 1) (some wclient.session_id) wexc).error_message =
        some wexc.msg ∧
      (agent_error_event (wids 1) (some wclient.session_id) wexc).meta_error_type =
        some wexc.ty ∧
      (agent_error_event (wids 1) (some wclient.session_id) wexc).meta_traceback =
        some wexc.tb) :=
  ⟨rfl, rfl,
   (C3_hooks_observational wids 5 0 wfunc (some wclient) 0).1,
   ((C3_hooks_observational wids 5 0 wfunc (some wclient) 0).2.2 wclient rfl).2.1 wexc rfl⟩

/-- C9: with no global client initialized, the module-level `track_event`
is a no-op apart from an optional debug print — it leaves the global state
untouched for every event; after `initialize(...)` the same call delegates
the event to the singleton returned by `get_client`. -/
theorem C9_global_track_event (now : Int) (e : SdkEvent) (bs : Nat) (fi : Int)
    (dbg : Bool) (sid : String) (t0 : Int) :
    ((track_event none now e).1 = none) ∧
    (truthyStr e.session_id = false → track_event none now e = (none, none)) ∧
    (truthyStr e.session_id = true →
      track_event none now e =
        (none, some ("[REPL;ay] No client initialized. Event: " ++ e.event_type))) ∧
    (get_client (init_global_client bs fi dbg sid t0) =
      some (ReplAyClient.new bs fi dbg sid t0)) ∧
    (track_event (init_global_client bs fi dbg sid t0) now e =
      (some ((ReplAyClient.new bs fi dbg sid t0).track_event now e), none)) := by
  refine ⟨?_, ?_, ?_, rfl, rfl⟩
  · simp only [track_event, get_client]
    split <;> rfl
  · intro h
    simp [track_event, get_client, h]
  · intro h
    simp [track_event, get_client, h]

/-- Witness for C9: an event with a truthy session id and one without. -/
theorem C9_global_track_event_witness :
    (truthyStr e9b.session_id = false ∧ track_event none 0 e9b = (none, none)) ∧
    (truthyStr e9a.session_id = true ∧
      track_event none 0 e9a =
        (none, some ("[REPL;ay] No client initialized. Event: " ++ e9a.event_type))) :=
  ⟨⟨by decide, (C9_global_track_event 0 e9b 100 30 false "s" 0).2.1 (by decide)⟩,
   ⟨by decide, (C9_global_track_event 0 e9a 100 30 false "s" 0).2.2.1 (by decide)⟩⟩

theorem filterMap_parse_length (m : StampMeta) :
    ∀ events : List JVal,
      (events.filterMap (parseEvent m)).length = (events.filter isObjEvent).length := by
  intro events
  induction events with
  | nil => rfl
  | cons v evs ih =>
    cases v <;> simp [List.filterMap_cons, List.filter_cons, parseEvent, isObjEvent, ih]

/-- C2: if zero events survive validation the whole batch fails with HTTP
400 and nothing is handed to storage; otherwise the endpoint responds with
success and `events_received` equal to the number of structurally valid
(map-shaped) events, and exactly those stamped valid events are handed to
the storage task — an invalid entry is skipped and contributes nothing. -/
theorem C2_ingestion_validation (m : StampMeta) (events : List JVal) :
    (events.filter isObjEvent = [] → ingest_events m events = Except.error 400) ∧
    (events.filter isObjEvent ≠ [] →
      ∃ resp stored,
        ingest_events m events = Except.ok (resp, stored) ∧
        resp.success = true ∧
        resp.events_received = (events.filter isObjEvent).length ∧
        stored = events.filterMap (parseEvent m) ∧
        stored.length = (events.filter isObjEvent).length) ∧
    (∀ v : JVal, isObjEvent v = false → parseEvent m v = none) ∧
    (∀ fields : List (String × JVal),
      parseEvent m (JVal.obj fields) = some (dictUpdate fields (stampFields m))) := by
  have hlen := filterMap_parse_length m events
  refine ⟨?_, ?_, ?_, fun fields => rfl⟩
  · intro h
    have h0 : (events.filterMap (parseEvent m)).length = 0 := by
      rw [hlen, h]
      rfl
    have hnil : events.filterMap (parseEvent m) = [] := List.length_eq_zero.mp h0
    simp [ingest_events, hnil]
  · intro h
    have hne : events.filterMap (parseEvent m) ≠ [] := by
      intro e
      apply h
      have h0 : (events.filter isObjEvent).length = 0 := by
        rw [← hlen, e]
        rfl
      exact List.length_eq_zero.mp h0
    refine ⟨{ success := true,
              events_received := (events.filterMap (parseEvent m)).length,
              batch_id := m.batch_id,
              message := "Successfully queued " ++
                toString (events.filterMap (parseEvent m)).length ++
                " events for processing" },
            events.filterMap (parseEvent m), ?_, rfl, hlen, rfl, hlen⟩
    simp [ingest_events, hne]
  · intro v hv
    cases v <;> first | rfl | simp [isObjEvent] at hv

/-- Witness for C2: a mixed batch (one valid map, one invalid entry) and an
all-invalid batch. -/
theorem C2_ingestion_validation_witness :
    mixedBatch.filter isObjEvent ≠ [] ∧
    (∃ resp stored,
        ingest_events meta0 mixedBatch = Except.ok (resp, stored) ∧
        resp.success = true ∧
        resp.events_received = (mixedBatch.filter isObjEvent).length ∧
        stored = mixedBatch.filterMap (parseEvent meta0) ∧
        stored.length = (mixedBatch.filter isObjEvent).length) ∧
    ingest_events meta0 [JVal.num 7] = Except.error 400 := by
  have hne : mixedBatch.filter isObjEvent ≠ [] := by
    intro h
    have he : mixedBatch.filter isObjEvent =
        [JVal.obj [("event_type", JVal.str "llm.end")]] := rfl
    rw [he] at h
    exact List.cons_ne_nil _ _ h
  exact ⟨hne, (C2_ingestion_validation meta0 mixedBatch).2.1 hne,
    (C2_ingestion_validation meta0 [JVal.num 7]).1 rfl⟩

theorem storeRowsFrom_spec (b n : String) (f : Nat → String) :
    ∀ (evs : List (List (String × JVal))) (i : Nat) (rows : List StoredRow),
      storeRowsFrom b n f i evs = some rows →
      rows.length = evs.length ∧
      ∀ (j : Nat) (ev : List (String × JVal)), evs[j]? = some ev →
        ∃ r, rows[j]? = some r ∧ rowOfEvent b (f (i + j)) n ev = some r := by
  intro evs
  induction evs with
  | nil =>
    intro i rows h
    simp only [storeRowsFrom] at h
    cases h
    refine ⟨rfl, ?_⟩
    intro j ev hj
    simp at hj
  | cons ev evs ih =>
    intro i rows h
    simp only [storeRowsFrom] at h
    cases hrow : rowOfEvent b (f i) n ev with
    | none => rw [hrow] at h; simp at h
    | some r =>
      rw [hrow] at h
      cases hrec : storeRowsFrom b n f (i + 1) evs with
      | none => rw [hrec] at h; simp at h
      | some rs =>
        rw [hrec] at h
        simp only [Option.map_some', Option.some.injEq] at h
        obtain ⟨hlen, hpt⟩ := ih (i + 1) rs hrec
        subst h
        refine ⟨by simp [hlen], ?_⟩
        intro j ev2 hj
        cases j with
        | zero =>
          simp only [List.getElem?_cons_zero, Option.some.injEq] at hj
          subst hj
          exact ⟨r, by simp, by simpa using hrow⟩
        | succ j =>
          simp only [List.getElem?_cons_succ] at hj
          obtain ⟨r2, hr2, hrow2⟩ := hpt j ev2 hj
          refine ⟨r2, by simpa using hr2, ?_⟩
          have harith : i + 1 + j = i + (j + 1) := by omega
          rw [← harith]
          exact hrow2

/-- C10 counterexample: an incoming event map that explicitly carries
`event_id: null` is stored with a null `event_id` — `event.get` only falls
back to the fresh UUID when the key is absent — so "non-null event_id
regardless of the contents of the incoming event map" fails on the code. -/
theorem C10_null_event_id_counterexample :
    (store_events_batch "batch-0" "t0" (fun _ => "fresh-uuid")
        [[("event_id", JVal.null)]]).map (fun rows => rows.map (fun r => r.event_id)) =
      some [JVal.null] := rfl

/-- C10 (amended): every row produced by the storage task carries the
`batch_id` of its batch and the full incoming event as `raw_data`; an event
whose map does not contain the `event_id` key gets the freshly generated
UUID and one without the `timestamp` key gets the storage-time clock value,
while a present key (even an explicit null) is passed through unchanged —
so the stored `event_id`/`timestamp` are non-null unless the event
explicitly carried null at those keys. -/
theorem C10_storage_row_defaults (batch_id now : String) (freshIds : Nat → String)
    (events : List (List (String × JVal))) (rows : List StoredRow)
    (h : store_events_batch batch_id now freshIds events = some rows) :
    rows.length = events.length ∧
    (∀ (j : Nat) (ev : List (String × JVal)), events[j]? = some ev →
      ∃ r, rows[j]? = some r ∧
        r.batch_id = batch_id ∧
        r.raw_data = ev ∧
        (hasKey ev "event_id" = false → r.event_id = JVal.str (freshIds j)) ∧
        (hasKey ev "timestamp" = false → r.timestamp = JVal.str now) ∧
        (∀ v, dictFind ev "event_id" = some v → r.event_id = v) ∧
        (∀ v, dictFind ev "timestamp" = some v → r.timestamp = v)) := by
  obtain ⟨hlen, hpt⟩ := storeRowsFrom_spec batch_id now freshIds events 0 rows h
  refine ⟨hlen, ?_⟩
  intro j ev hj
  obtain ⟨r, hr, hrow⟩ := hpt j ev hj
  rw [Nat.zero_add] at hrow
  unfold rowOfEvent at hrow
  cases hctx : traceCtxFields ev with
  | none => rw [hctx] at hrow; simp at hrow
  | some ctx =>
    rw [hctx] at hrow
    simp only [Option.map_some', Option.some.injEq] at hrow
    refine ⟨r, hr, ?_, ?_, ?_, ?_, ?_, ?_⟩ <;> rw [← hrow]
    · rfl
    · rfl
    · intro hk
      cases hfind : dictFind ev "event_id" with
      | none => simp [mkStoredRow, dictGetD, hfind]
      | some v => simp [hasKey, hfind] at hk
    · intro hk
      cases hfind : dictFind ev "timestamp" with
      | none => simp [mkStoredRow, dictGetD, hfind]
      | some v => simp [hasKey, hfind] at hk
    · intro v hv
      simp [mkStoredRow, dictGetD, hv]
    · intro v hv
      simp [mkStoredRow, dictGetD, hv]

/-- Witness for C10 at a concrete two-event batch (one event lacking both
keys, one carrying its own id). -/
theorem C10_storage_row_defaults_witness :
    store_events_batch "batch-10" "t-now" fresh10 events10 = some rows10 ∧
    rows10.length = events10.length :=
  ⟨rfl, (C10_storage_row_defaults "batch-10" "t-now" fresh10 events10 rows10 rfl).1⟩

theorem sum_map_zero_q {K : Type} (ks : List K) : (ks.map (fun _ => (0 : ℚ))).sum = 0 := by
  induction ks with
  | nil => rfl
  | cons k ks ih => simp [ih]

theorem sum_map_add_q {K : Type} (ks : List K) (f g : K → ℚ) :
    (ks.map (fun k => f k + g k)).sum = (ks.map f).sum + (ks.map g).sum := by
  induction ks with
  | nil => simp
  | cons k ks ih =>
    simp only [List.map_cons, List.sum_cons, ih]
    ring

theorem sum_ite_not_mem {K : Type} [DecidableEq K] (k0 : K) (c : ℚ) :
    ∀ ks : List K, k0 ∉ ks → (ks.map (fun k => if k0 = k then c else 0)).sum = 0 := by
  intro ks
  induction ks with
  | nil => intro _; rfl
  | cons k ks ih =>
    intro h
    have hk : k0 ≠ k := fun e => h (e ▸ List.mem_cons_self _ _)
    simp [hk, ih (fun hm => h (List.mem_cons_of_mem _ hm))]

theorem sum_ite_mem {K : Type} [DecidableEq K] (k0 : K) (c : ℚ) :
    ∀ ks : List K, ks.Nodup → k0 ∈ ks →
      (ks.map (fun k => if k0 = k then c else 0)).sum = c := by
  intro ks
  induction ks with
  | nil => intro _ h; exact absurd h (List.not_mem_nil _)
  | cons k ks ih =>
    intro hnd hmem
    rcases List.mem_cons.mp hmem with he | hm
    · subst he
      have hk := (List.nodup_cons.mp hnd).1
      simp [sum_ite_not_mem k0 c ks hk]
    · have hk : k0 ≠ k := by
        intro e
        exact (List.nodup_cons.mp hnd).1 (e ▸ hm)
      simp [hk, ih (List.nodup_cons.mp hnd).2 hm]

theorem sum_group_filter (ks : List (Option String)) (hnd : ks.Nodup) :
    ∀ l : List TelemetryRow, (∀ r ∈ l, r.model_name ∈ ks) →
      (ks.map (fun k =>
        ((l.filter (fun r => decide (r.model_name = k))).map costVal).sum)).sum =
      (l.map costVal).sum := by
  intro l
  induction l with
  | nil =>
    intro _
    exact sum_map_zero_q ks
  | cons r l ih =>
    intro hcov
    have hsplit : ∀ k ∈ ks,
        (((r :: l).filter (fun x => decide (x.model_name = k))).map costVal).sum =
        (if r.model_name = k then costVal r else 0) +
          ((l.filter (fun x => decide (x.model_name = k))).map costVal).sum := by
      intro k _
      by_cases hk : r.model_name = k
      · simp [List.filter_cons, hk]
      · simp [List.filter_cons, hk]
    rw [List.map_congr_left hsplit, sum_map_add_q]
    have h1 : (ks.map (fun k => if r.model_name = k then costVal r else 0)).sum = costVal r :=
      sum_ite_mem _ _ ks hnd (hcov r (List.mem_cons_self _ _))
    have h2 := ih (fun x hx => hcov x (List.mem_cons_of_mem _ hx))
    rw [h1, h2]
    simp

theorem total_cost_eq_sum (rows : List TelemetryRow) :
    total_cost rows = ((positiveCostRows rows).map costVal).sum :=
  sum_group_filter (modelKeys rows) (List.nodup_dedup _) (positiveCostRows rows)
    (fun _ hr => List.mem_dedup.mpr (List.mem_map_of_mem _ hr))

theorem total_cost_pos (rows : List TelemetryRow) (h : ∃ r ∈ rows, 0 < costVal r) :
    0 < total_cost rows := by
  obtain ⟨r, hr, hc⟩ := h
  have hrp : r ∈ positiveCostRows rows := by
    simp [positiveCostRows, List.mem_filter, hr, hc]
  rw [total_cost_eq_sum]
  apply List.sum_pos
  · intro x hx
    obtain ⟨r2, hr2, he⟩ := List.mem_map.mp hx
    have hp := (List.mem_filter.mp hr2).2
    rw [← he]
    exact of_decide_eq_true hp
  · intro e
    exact List.ne_nil_of_mem hrp (List.map_eq_nil_iff.mp e)

theorem roundHalfEven_close (y : ℚ) : |(roundHalfEven y : ℚ) - y| ≤ 1 / 2 := by
  unfold roundHalfEven
  split
  · rename_i hhalf
    have hfrac : y - (⌊y⌋ : ℚ) = 1 / 2 := by linarith
    split
    · have he : ((⌊y⌋ : ℤ) : ℚ) - y = -(1 / 2) := by linarith
      rw [he, abs_neg, abs_of_nonneg (by norm_num : (0 : ℚ) ≤ 1 / 2)]
    · have he : ((⌊y⌋ + 1 : ℤ) : ℚ) - y = 1 / 2 := by push_cast; linarith
      rw [he, abs_of_nonneg (by norm_num : (0 : ℚ) ≤ 1 / 2)]
  · have h1 : |y - (round y : ℚ)| ≤ 1 / 2 := abs_sub_round y
    rw [abs_sub_comm] at h1
    exact h1

theorem pyRound1_close (x : ℚ) : |pyRound x 1 - x| ≤ 1 / 20 := by
  have h := roundHalfEven_close (x * 10 ^ 1)
  unfold pyRound
  have key : (roundHalfEven (x * 10 ^ 1) : ℚ) / 10 ^ 1 - x =
      ((roundHalfEven (x * 10 ^ 1) : ℚ) - x * 10 ^ 1) / 10 ^ 1 := by ring
  rw [key, abs_div]
  have habs10 : |(10 : ℚ) ^ 1| = 10 := by norm_num
  rw [habs10]
  linarith

theorem sum_pyRound_close :
    ∀ l : List ℚ, |(l.map (fun p => pyRound p 1)).sum - l.sum| ≤ l.length * (1 / 20) := by
  intro l
  induction l with
  | nil => simp
  | cons p l ih =>
    simp only [List.map_cons, List.sum_cons, List.length_cons]
    push_cast
    have h1 := pyRound1_close p
    have key : pyRound p 1 + (l.map (fun q => pyRound q 1)).sum - (p + l.sum) =
        (pyRound p 1 - p) + ((l.map (fun q => pyRound q 1)).sum - l.sum) := by ring
    rw [key]
    calc |(pyRound p 1 - p) + ((l.map (fun q => pyRound q 1)).sum - l.sum)|
        ≤ |pyRound p 1 - p| + |(l.map (fun q => pyRound q 1)).sum - l.sum| := abs_add _ _
      _ ≤ 1 / 20 + l.length * (1 / 20) := add_le_add h1 ih
      _ = (l.length + 1) * (1 / 20) := by ring

/-- C8: for every scope with at least one positive-cost event, the exact
per-model percentages (group cost over scope total, times 100) sum to
exactly 100, and the rounded percentages the endpoint returns sum to 100
within the rounding tolerance of one twentieth per model; every returned
item is the group of one model key, labelled with the model name (default
"Unknown" when missing), with percentage computed from its group cost, and
colored by the fixed lookup with the deterministic gray fallback. -/
theorem C8_cost_breakdown (rows : List TelemetryRow)
    (h : ∃ r ∈ rows, 0 < costVal r) :
    ((modelKeys rows).map (exactPercentage rows)).sum = 100 ∧
    |((get_cost_breakdown rows).map (fun it => it.percentage)).sum - 100| ≤
      (get_cost_breakdown rows).length * (1 / 20) ∧
    (∀ it ∈ get_cost_breakdown rows, ∃ k ∈ modelKeys rows,
      it.model_name = modelLabel k ∧
      it.cost = pyRound (groupCost rows k) 2 ∧
      it.percentage = pyRound (exactPercentage rows k) 1 ∧
      it.color = colorFor (modelLabel k)) ∧
    (∀ it ∈ get_cost_breakdown rows,
      (model_colors.lookup it.model_name.toLower = none → it.color = "#6b7280") ∧
      (∀ col, model_colors.lookup it.model_name.toLower = some col → it.color = col)) := by
  have htpos := total_cost_pos rows h
  have htne : total_cost rows ≠ 0 := ne_of_gt htpos
  have hsum : ((modelKeys rows).map (exactPercentage rows)).sum = 100 := by
    have hpoint : ∀ k ∈ modelKeys rows,
        exactPercentage rows k = groupCost rows k * (100 / total_cost rows) := by
      intro k _
      unfold exactPercentage
      rw [div_mul_eq_mul_div, mul_div_assoc]
    rw [List.map_congr_left hpoint, List.sum_map_mul_right]
    show total_cost rows * (100 / total_cost rows) = 100
    field_simp
  have hperm : (sortedModelCosts rows).Perm
      ((modelKeys rows).map (fun k => (k, groupCost rows k))) :=
    List.mergeSort_perm _ _
  have hpctlist : (get_cost_breakdown rows).map (fun it => it.percentage) =
      (sortedModelCosts rows).map (fun kc => pyRound (kc.2 / total_cost rows * 100) 1) := by
    simp [get_cost_breakdown, List.map_map]
  have hpctsum : ((get_cost_breakdown rows).map (fun it => it.percentage)).sum =
      (((modelKeys rows).map (exactPercentage rows)).map (fun p => pyRound p 1)).sum := by
    rw [hpctlist]
    rw [(hperm.map (fun kc => pyRound (kc.2 / total_cost rows * 100) 1)).sum_eq]
    simp only [List.map_map]
    rfl
  have hlength : (get_cost_breakdown rows).length =
      ((modelKeys rows).map (exactPercentage rows)).length := by
    simp [get_cost_breakdown, sortedModelCosts]
  refine ⟨hsum, ?_, ?_, ?_⟩
  · rw [hpctsum, hlength]
    have hclose := sum_pyRound_close ((modelKeys rows).map (exactPercentage rows))
    rw [hsum] at hclose
    exact hclose
  · intro it hit
    simp only [get_cost_breakdown, List.mem_map] at hit
    obtain ⟨kc, hkc, he⟩ := hit
    have hkc2 : kc ∈ (modelKeys rows).map (fun k => (k, groupCost rows k)) := by
      rw [← hperm.mem_iff]
      exact hkc
    obtain ⟨k, hk, hke⟩ := List.mem_map.mp hkc2
    subst hke
    subst he
    exact ⟨k, hk, rfl, rfl, rfl, rfl⟩
  · intro it hit
    simp only [get_cost_breakdown, List.mem_map] at hit
    obtain ⟨kc, hkc, he⟩ := hit
    have hcolor : it.color = colorFor it.model_name := by
      rw [← he]
    constructor
    · intro hnone
      rw [hcolor]
      unfold colorFor
      rw [hnone]
      rfl
    · intro col hsome
      rw [hcolor]
      unfold colorFor
      rw [hsome]
      rfl

/-- Witness for C8 at a concrete scope with two positive-cost models. -/
theorem C8_cost_breakdown_witness :
    (∃ r ∈ rows8, 0 < costVal r) ∧
    ((modelKeys rows8).map (exactPercentage rows8)).sum = 100 :=
  ⟨⟨_, List.mem_cons_self _ _, by decide⟩,
   (C8_cost_breakdown rows8 ⟨_, List.mem_cons_self _ _, by decide⟩).1⟩

end ReplAy
